import Mathlib

/-!
Verification of the vitellary split-timer core against its source.

The embedding follows `src/game.rs` and `src/game/mod.rs` (state tracker and
event classification), `src/game/common.rs` (timer decoding), and
`src/game/macos.rs` (signature scan in `Game::attach`).

Machine integers are modelled as `Nat`, with an explicit `% 2^32` exactly where
the Rust code performs `u32` arithmetic that can wrap.  `Duration` values are
modelled as total nanoseconds (`Duration::new(s, n)` denotes `s * 10^9 + n`
nanoseconds; for all inputs reachable here the `u64` seconds arithmetic cannot
overflow).  Fallible operations return `Option`.
-/

namespace Vitellary

/-- `Event` enum from `src/game.rs` / `src/game/mod.rs`. -/
inductive Event where
  | NewGame
  | Verdigris
  | Vermilion
  | Victoria
  | Violet
  | Vitellary
  | IntermissionOne
  | IntermissionTwo
  | GameComplete
  | Reset
deriving DecidableEq

/-- `struct State` from `src/game.rs`: one decoded snapshot. -/
structure State where
  room : Nat × Nat
  gamestate : Nat
  state : Nat
deriving DecidableEq

/-- `u32::MAX`, the sentinel marking an uninitialized snapshot. -/
def UMAX : Nat := 4294967295

/-- `State::new()` from `src/game.rs`. -/
def State.new : State :=
  { room := (UMAX, UMAX), gamestate := UMAX, state := UMAX }

/-- `PLAYING_STATES` constant from `src/game.rs`. -/
def PLAYING_STATES : List Nat := [0, 4, 5]

/-- A split range `lo..=hi`, as in the `SPLITS` table. -/
def rangeContains (r : Nat × Nat) (x : Nat) : Bool :=
  decide (r.1 ≤ x ∧ x ≤ r.2)

/-- `SPLITS` constant from `src/game.rs`: eight `(Event, RangeInclusive<u32>)`
pairs in declared order. -/
def SPLITS : List (Event × (Nat × Nat)) :=
  [(Event.Verdigris, (3006, 3011)),
   (Event.Vermilion, (3060, 3065)),
   (Event.Victoria, (3040, 3045)),
   (Event.Violet, (4091, 4099)),
   (Event.Vitellary, (3020, 3025)),
   (Event.IntermissionOne, (3085, 3087)),
   (Event.IntermissionTwo, (3080, 3082)),
   (Event.GameComplete, (3503, 3509))]

/-- `struct Update` from `src/game.rs`; `time` is total nanoseconds. -/
structure Update where
  time : Nat
  event : Option Event
deriving DecidableEq

/-- The body of the `find_map` closure in `Game::update`: does the pair's
range contain `cur.state` but not `old.state`? -/
def splitFires (old cur : State) (p : Event × (Nat × Nat)) : Bool :=
  rangeContains p.2 cur.state && !(rangeContains p.2 old.state)

/-- The timer decoding shared by `Game::update` (`src/game.rs`) and
`impl From<Timer<u32>> for Duration` (`src/game/common.rs`):
`Duration::new(hours*3600 + minutes*60 + seconds, 1_000_000_000u32 / 30 * frames)`.
The seconds sum is `u64` arithmetic (cannot wrap for `u32` fields); the
nanosecond product is `u32` arithmetic, hence the `% 2^32`. -/
def timeOf (frames seconds minutes hours : Nat) : Nat :=
  (hours * 3600 + minutes * 60 + seconds) * 1000000000
    + (1000000000 / 30 * frames) % 4294967296

/-- The event-classification tail of `Game::update`, operating on the
already-shifted `(old, cur)` pair: the two gamestate rules, then the
state-3006 suppression, then the `SPLITS` scan via `find_map`. -/
def classifyUpdate (old cur : State) (time : Nat) : Update :=
  if PLAYING_STATES.contains cur.gamestate
      && !(PLAYING_STATES.contains old.gamestate) then
    { time := 0, event := some Event.NewGame }
  else if !(PLAYING_STATES.contains cur.gamestate)
      && PLAYING_STATES.contains old.gamestate then
    { time := time, event := some Event.Reset }
  else
    { time := time,
      event :=
        if cur.state = 3006 ∧ cur.room ≠ (115, 100) then
          none
        else
          SPLITS.findSome? fun p =>
            if splitFires old cur p then some p.1 else none }

/-- The history-shift step of `Game::update`: on the first successful poll
(detected via the sentinel on `old.state`) both snapshots become the new one;
otherwise `old := cur; cur := new`. -/
def updateHistory (old cur new : State) : State × State :=
  if old.state = UMAX then (new, new) else (cur, new)

/-- One successful `Game::update` on decoded snapshot `new` with decoded
time `time`: shift history, then classify. -/
def updateStep (old cur new : State) (time : Nat) : (State × State) × Update :=
  let h := updateHistory old cur new
  (h, classifyUpdate h.1 h.2 time)

/-- `Game::update` including the fallible memory read: `read = none` models a
failed `copy_address`, which the `?` operator propagates before any field of
the tracker is written.  The result pairs the (possibly unchanged) tracker
state with `none` on failure or the produced `Update` on success. -/
def poll (hist : State × State) (read : Option (State × Nat)) :
    (State × State) × Option Update :=
  match read with
  | none => (hist, none)
  | some (s, t) =>
    let r := updateStep hist.1 hist.2 s t
    (r.1, some r.2)

/-! ## Signature scan (`Game::attach`, `src/game.rs` / `src/game/macos.rs`)

The scan reads 4096-byte chunks at `0x1_0000_0000 + 4056 * k` (step
`buf.len() - 0x28`) while the chunk start is below `0x1_4000_0000`, and runs
`Regex::new(r"00:00\x00{18}.nowhere")` over each chunk that reads
successfully.  Memory is modelled as a byte function `mem : Nat → Nat`
together with `ok : Nat → Bool` telling whether `copy_address` succeeds for
the chunk starting at a given address.

The `regex::bytes` crate runs in Unicode mode by default, so `.` matches any
UTF-8 encoding of a Unicode scalar value other than `\n` (1 to 4 bytes); it
does not match a lone `0x0A` byte nor a lone byte `≥ 0x80`.  `dotLen` encodes
exactly this. -/

/-- UTF-8 continuation byte (`0x80..=0xBF`). -/
def isCont (b : Nat) : Bool := decide (128 ≤ b ∧ b ≤ 191)

/-- Number of bytes the regex metacharacter `.` consumes at position `p`
(`none` if no Unicode scalar value other than `\n` is encoded there). -/
def dotLen (mem : Nat → Nat) (p : Nat) : Option Nat :=
  if mem p ≤ 127 then
    if mem p = 10 then none else some 1
  else if 194 ≤ mem p ∧ mem p ≤ 223 then
    if isCont (mem (p + 1)) then some 2 else none
  else if mem p = 224 then
    if decide (160 ≤ mem (p + 1) ∧ mem (p + 1) ≤ 191) && isCont (mem (p + 2))
    then some 3 else none
  else if (225 ≤ mem p ∧ mem p ≤ 236) ∨ mem p = 238 ∨ mem p = 239 then
    if isCont (mem (p + 1)) && isCont (mem (p + 2)) then some 3 else none
  else if mem p = 237 then
    if decide (128 ≤ mem (p + 1) ∧ mem (p + 1) ≤ 159) && isCont (mem (p + 2))
    then some 3 else none
  else if mem p = 240 then
    if decide (144 ≤ mem (p + 1) ∧ mem (p + 1) ≤ 191) && isCont (mem (p + 2))
        && isCont (mem (p + 3))
    then some 4 else none
  else if 241 ≤ mem p ∧ mem p ≤ 243 then
    if isCont (mem (p + 1)) && isCont (mem (p + 2)) && isCont (mem (p + 3))
    then some 4 else none
  else if mem p = 244 then
    if decide (128 ≤ mem (p + 1) ∧ mem (p + 1) ≤ 143) && isCont (mem (p + 2))
        && isCont (mem (p + 3))
    then some 4 else none
  else none

/-- The fixed prefix of the pattern: ASCII `00:00` followed by 18 zero
bytes, starting at `p`. -/
def sigHead (mem : Nat → Nat) (p : Nat) : Bool :=
  mem p == 48 && mem (p + 1) == 48 && mem (p + 2) == 58
    && mem (p + 3) == 48 && mem (p + 4) == 48
    && (List.range 18).all fun j => mem (p + 5 + j) == 0

/-- ASCII `nowhere` starting at `q`. -/
def nowhereAt (mem : Nat → Nat) (q : Nat) : Bool :=
  mem q == 110 && mem (q + 1) == 111 && mem (q + 2) == 119
    && mem (q + 3) == 104 && mem (q + 4) == 101 && mem (q + 5) == 114
    && mem (q + 6) == 101

/-- Length of the regex match starting at absolute position `p`, if any:
`"00:00"` (5) + 18 NULs + one `.`-match (`d`) + `"nowhere"` (7). -/
def matchLen (mem : Nat → Nat) (p : Nat) : Option Nat :=
  if sigHead mem p then
    match dotLen mem (p + 23) with
    | some d => if nowhereAt mem (p + 23 + d) then some (30 + d) else none
    | none => none
  else none

/-- Scan range start `0x1_0000_0000`. -/
def scanBase : Nat := 4294967296

/-- Scan range end `0x1_4000_0000` (exclusive). -/
def scanEnd : Nat := 5368709120

/-- `buf.len()`, the 4096-byte read buffer. -/
def chunkSize : Nat := 4096

/-- `step_by` argument `buf.len() - 0x28`. -/
def chunkStep : Nat := 4056

/-- `OFFSET_GAMETIME` constant (`0xb8`). -/
def OFFSET_GAMETIME : Nat := 184

/-- Start address of the `k`-th chunk visited by the `for` loop. -/
def chunkAddr (k : Nat) : Nat := scanBase + chunkStep * k

/-- Number of chunk starts produced by
`(0x1_0000_0000..0x1_4000_0000).step_by(4056)`. -/
def numChunks : Nat := (scanEnd - scanBase + (chunkStep - 1)) / chunkStep

/-- `regex.find(&buf)` for the chunk starting at `c`: the smallest buffer
offset `i` at which a match starts and fits inside the 4096-byte buffer.
`fuel` counts the candidate offsets still to try, starting from `i`. -/
def chunkFindAux (mem : Nat → Nat) (c : Nat) : Nat → Nat → Option Nat
  | _, 0 => none
  | i, fuel + 1 =>
    match matchLen mem (c + i) with
    | some len =>
      if i + len ≤ chunkSize then some i else chunkFindAux mem c (i + 1) fuel
    | none => chunkFindAux mem c (i + 1) fuel

/-- `regex.find` over one whole chunk. -/
def chunkFind (mem : Nat → Nat) (c : Nat) : Option Nat :=
  chunkFindAux mem c 0 chunkSize

/-- The scan loop of `Game::attach`, from chunk `k` with `n` chunks left:
skip unreadable chunks, and on the first chunk whose buffer contains a match
at offset `i` return `chunk start + (i - i % 8) - OFFSET_GAMETIME`. -/
def scanAux (mem : Nat → Nat) (ok : Nat → Bool) : Nat → Nat → Option Nat
  | _, 0 => none
  | k, n + 1 =>
    if ok (chunkAddr k) then
      match chunkFind mem (chunkAddr k) with
      | some i => some (chunkAddr k + (i - i % 8) - OFFSET_GAMETIME)
      | none => scanAux mem ok (k + 1) n
    else scanAux mem ok (k + 1) n

/-- The whole signature scan of `Game::attach`; `none` models the
`Err(anyhow!("failed to find game object"))` (object-not-found) result. -/
def findGameObject (mem : Nat → Nat) (ok : Nat → Bool) : Option Nat :=
  scanAux mem ok 0 numChunks

/-- The 31-byte signature of the claim, placed at address `a` with arbitrary
wildcard byte `b`: `"00:00"`, 18 zero bytes, `b`, `"nowhere"`. -/
def sigBytesAt (mem : Nat → Nat) (a b : Nat) : Prop :=
  mem a = 48 ∧ mem (a + 1) = 48 ∧ mem (a + 2) = 58 ∧ mem (a + 3) = 48
    ∧ mem (a + 4) = 48
    ∧ (∀ j, j < 18 → mem (a + 5 + j) = 0)
    ∧ mem (a + 23) = b
    ∧ mem (a + 24) = 110 ∧ mem (a + 25) = 111 ∧ mem (a + 26) = 119
    ∧ mem (a + 27) = 104 ∧ mem (a + 28) = 101 ∧ mem (a + 29) = 114
    ∧ mem (a + 30) = 101

/-- The 31 signature bytes with wildcard byte `b`. -/
def sigList (b : Nat) : List Nat :=
  [48, 48, 58, 48, 48] ++ List.replicate 18 0 ++ [b]
    ++ [110, 111, 119, 104, 101, 114, 101]

/-- A concrete memory: the signature with wildcard byte `b` at the very start
of the scanned range, zero everywhere else. -/
def memWith (b : Nat) : Nat → Nat := fun p =>
  if 4294967296 ≤ p ∧ p < 4294967327 then (sigList b).getD (p - 4294967296) 0
  else 0

/-- A memory source for which every chunk read succeeds. -/
def allOk : Nat → Bool := fun _ => true

/-! ## Concrete fixtures used by witnesses and counterexamples -/

/-- Snapshot fixture: mid-run, `state = 100`. -/
def exOld : State := { room := (50, 50), gamestate := 7, state := 100 }

/-- Snapshot fixture: mid-run, `state = 101`. -/
def exCur : State := { room := (50, 50), gamestate := 7, state := 101 }

/-- Snapshot fixture whose `state` field is the `u32::MAX` sentinel. -/
def exMax : State := { room := (50, 50), gamestate := 9, state := UMAX }

/-- Snapshot fixture decoded after `exMax`, with a playing gamestate. -/
def exNext : State := { room := (50, 50), gamestate := 0, state := 200 }

/-! ## Helper lemmas -/

theorem splitFires_self (x : State) (p : Event × (Nat × Nat)) :
    splitFires x x p = false := by
  unfold splitFires
  exact Bool.and_not_self _

theorem classifyUpdate_self (x : State) (t : Nat) :
    (classifyUpdate x x t).event = none := by
  unfold classifyUpdate
  rw [Bool.and_not_self, Bool.not_and_self]
  simp only [Bool.false_eq_true, if_false]
  split
  · rfl
  · simp [List.findSome?_eq_none_iff, splitFires_self]

theorem findSome?_if_eq_find?_map {α β : Type} (q : α → Bool) (f : α → β)
    (l : List α) :
    (l.findSome? fun a => if q a then some (f a) else none)
      = (l.find? q).map f := by
  induction l with
  | nil => rfl
  | cons a l ih =>
    cases h : q a with
    | true =>
      rw [List.findSome?_cons_of_isSome _ (by simp [h]),
        List.find?_cons_of_pos _ h]
      simp [h]
    | false =>
      rw [List.findSome?_cons_of_isNone _ (by simp [h]),
        List.find?_cons_of_neg _ (by simp [h]), ih]

theorem dotLen_bounds {mem : Nat → Nat} {p d : Nat}
    (h : dotLen mem p = some d) : 1 ≤ d ∧ d ≤ 4 := by
  unfold dotLen at h
  split_ifs at h <;> cases h <;> omega

theorem matchLen_bounds {mem : Nat → Nat} {p len : Nat}
    (h : matchLen mem p = some len) : 31 ≤ len ∧ len ≤ 34 := by
  unfold matchLen at h
  by_cases hh : sigHead mem p = true
  · rw [if_pos hh] at h
    cases hd : dotLen mem (p + 23) with
    | none => rw [hd] at h; cases h
    | some d =>
      rw [hd] at h
      dsimp only at h
      have hb := dotLen_bounds hd
      by_cases hn : nowhereAt mem (p + 23 + d) = true
      · rw [if_pos hn] at h
        have : 30 + d = len := by injection h
        omega
      · rw [if_neg hn] at h; cases h
  · rw [if_neg hh] at h; cases h

theorem chunkFindAux_eq_none (mem : Nat → Nat) (c : Nat) :
    ∀ fuel i0,
      (∀ i len, i0 ≤ i → i < i0 + fuel →
        matchLen mem (c + i) = some len → chunkSize < i + len) →
      chunkFindAux mem c i0 fuel = none := by
  intro fuel
  induction fuel with
  | zero => intro i0 _; rfl
  | succ n ih =>
    intro i0 h
    cases hm : matchLen mem (c + i0) with
    | none =>
      simp only [chunkFindAux, hm]
      exact ih (i0 + 1) fun i len hi hi2 hml => h i len (by omega) (by omega) hml
    | some len =>
      have hlen := h i0 len (Nat.le_refl _) (by omega) hm
      simp only [chunkFindAux, hm]
      rw [if_neg (by omega)]
      exact ih (i0 + 1) fun i len hi hi2 hml => h i len (by omega) (by omega) hml

theorem chunkFindAux_eq_some (mem : Nat → Nat) (c : Nat) :
    ∀ fuel i0 m, i0 ≤ m → m < i0 + fuel →
      matchLen mem (c + m) = some 31 → m + 31 ≤ chunkSize →
      (∀ i len, i0 ≤ i → i < m →
        matchLen mem (c + i) = some len → chunkSize < i + len) →
      chunkFindAux mem c i0 fuel = some m := by
  intro fuel
  induction fuel with
  | zero =>
    intro i0 m h1 h2 _ _ _
    exact absurd h2 (by omega)
  | succ n ih =>
    intro i0 m h1 h2 hm hfit hmin
    by_cases he : i0 = m
    · subst he
      simp only [chunkFindAux, hm]
      rw [if_pos hfit]
    · have hlt : i0 < m := by omega
      cases hml : matchLen mem (c + i0) with
      | none =>
        simp only [chunkFindAux, hml]
        exact ih (i0 + 1) m (by omega) (by omega) hm hfit
          fun i len hi hi2 h3 => hmin i len (by omega) hi2 h3
      | some len =>
        have := hmin i0 len (Nat.le_refl _) hlt hml
        simp only [chunkFindAux, hml]
        rw [if_neg (by omega)]
        exact ih (i0 + 1) m (by omega) (by omega) hm hfit
          fun i len hi hi2 h3 => hmin i len (by omega) hi2 h3

theorem scanAux_eq_none (mem : Nat → Nat) (ok : Nat → Bool) :
    ∀ n k, (∀ j, k ≤ j → j < k + n → chunkFind mem (chunkAddr j) = none) →
      scanAux mem ok k n = none := by
  intro n
  induction n with
  | zero => intro k _; rfl
  | succ n ih =>
    intro k h
    have h0 := h k (Nat.le_refl _) (by omega)
    have htail := ih (k + 1) fun j hj hj2 => h j (by omega) (by omega)
    simp only [scanAux, h0]
    cases hok : ok (chunkAddr k) <;> simp [htail]

theorem scanAux_finds (mem : Nat → Nat) (ok : Nat → Bool) (a : Nat)
    (hok : ∀ k, ok (chunkAddr k) = true)
    (hmin : ∀ p, p < a → matchLen mem p = none)
    (hm : matchLen mem a = some 31)
    (ha1 : scanBase ≤ a) (ha2 : a + 31 ≤ scanEnd) :
    ∀ n k, k + n = numChunks → chunkAddr k ≤ a →
      scanAux mem ok k n = some (a - a % 8 - OFFSET_GAMETIME) := by
  have hsz : chunkSize = 4096 := rfl
  have hnum : numChunks = 264730 := rfl
  have he : scanEnd = 5368709120 := rfl
  intro n
  induction n with
  | zero =>
    intro k hk hka
    exfalso
    have hca : chunkAddr k = 4294967296 + 4056 * k := rfl
    omega
  | succ n ih =>
    intro k hk hka
    have hca : chunkAddr k = 4294967296 + 4056 * k := rfl
    by_cases hfit : a + 31 ≤ chunkAddr k + chunkSize
    · have hcf : chunkFind mem (chunkAddr k) = some (a - chunkAddr k) := by
        show chunkFindAux mem (chunkAddr k) 0 chunkSize = some (a - chunkAddr k)
        apply chunkFindAux_eq_some
        · exact Nat.zero_le _
        · omega
        · have hpa : chunkAddr k + (a - chunkAddr k) = a := by omega
          rw [hpa]; exact hm
        · omega
        · intro i len _ hi2 hml
          exfalso
          have hia : chunkAddr k + i < a := by omega
          rw [hmin _ hia] at hml
          cases hml
      simp only [scanAux, hok k, if_true, hcf]
      have hOG : OFFSET_GAMETIME = 184 := rfl
      have harg : chunkAddr k + ((a - chunkAddr k) - (a - chunkAddr k) % 8)
            - OFFSET_GAMETIME
          = a - a % 8 - OFFSET_GAMETIME := by
        omega
      rw [harg]
    · have hcf : chunkFind mem (chunkAddr k) = none := by
        show chunkFindAux mem (chunkAddr k) 0 chunkSize = none
        apply chunkFindAux_eq_none
        intro i len _ _ hml
        by_cases hia : chunkAddr k + i < a
        · rw [hmin _ hia] at hml; cases hml
        · have h31 := matchLen_bounds hml
          omega
      simp only [scanAux, hok k, if_true, hcf]
      apply ih
      · omega
      · have hca1 : chunkAddr (k + 1) = 4294967296 + 4056 * (k + 1) := rfl
        omega

theorem chunk_covers (a : Nat) (ha1 : scanBase ≤ a) (ha2 : a + 31 ≤ scanEnd) :
    ∃ k, k < numChunks ∧ chunkAddr k ≤ a ∧ a + 31 ≤ chunkAddr k + chunkSize := by
  have hnum : numChunks = 264730 := rfl
  have hsz : chunkSize = 4096 := rfl
  have hb : scanBase = 4294967296 := rfl
  have he : scanEnd = 5368709120 := rfl
  have hca : chunkAddr ((a - 4294967296) / 4056)
      = 4294967296 + 4056 * ((a - 4294967296) / 4056) := rfl
  refine ⟨(a - 4294967296) / 4056, ?_, ?_, ?_⟩ <;> omega

theorem matchLen_of_sig {mem : Nat → Nat} {a b : Nat} (hs : sigBytesAt mem a b)
    (hb1 : b ≤ 127) (hb2 : b ≠ 10) : matchLen mem a = some 31 := by
  obtain ⟨m0, m1, m2, m3, m4, mz, mw, n0, n1, n2, n3, n4, n5, n6⟩ := hs
  have hhead : sigHead mem a = true := by
    simp only [sigHead, m0, m1, m2, m3, m4, beq_self_eq_true, Bool.true_and,
      List.all_eq_true, List.mem_range]
    intro j hj
    simp [mz j hj]
  have hdot : dotLen mem (a + 23) = some 1 := by
    simp [dotLen, mw, hb1, hb2]
  have hnow : nowhereAt mem (a + 23 + 1) = true := by
    have h24 : a + 23 + 1 = a + 24 := by omega
    rw [h24]
    simp [nowhereAt, n0, n1, n2, n3, n4, n5, n6]
  simp [matchLen, hhead, hdot, hnow]

theorem memWith_eq_zero_outside (b p : Nat)
    (h : p < 4294967296 ∨ 4294967327 ≤ p) : memWith b p = 0 := by
  unfold memWith
  rw [if_neg]
  omega

theorem matchLen_none_of_byte0 {mem : Nat → Nat} {p : Nat} (h : mem p = 0) :
    matchLen mem p = none := by
  have hh : sigHead mem p = false := by simp [sigHead, h]
  simp [matchLen, hh]

theorem memWith10_no_match : ∀ p, matchLen (memWith 10) p = none := by
  intro p
  by_cases h1 : p < 4294967296
  · exact matchLen_none_of_byte0 (memWith_eq_zero_outside 10 p (Or.inl h1))
  · by_cases h2 : 4294967327 ≤ p
    · exact matchLen_none_of_byte0 (memWith_eq_zero_outside 10 p (Or.inr h2))
    · obtain ⟨d, rfl⟩ : ∃ d, p = 4294967296 + d := ⟨p - 4294967296, by omega⟩
      have hd : d < 31 := by omega
      interval_cases d <;> decide

/-! ## Claim theorems -/

/-- C2: whenever `current.gamestate` is in the playing set and
`previous.gamestate` is not, classification produces `NewGame` with elapsed
time forced to `Duration::ZERO`, regardless of the decoded timer value `t`
and of every other snapshot field (so this rule preempts all later rules). -/
theorem c2_new_game_rule (old cur : State) (t : Nat)
    (hc : PLAYING_STATES.contains cur.gamestate = true)
    (ho : PLAYING_STATES.contains old.gamestate = false) :
    classifyUpdate old cur t = { time := 0, event := some Event.NewGame } := by
  have hc' : cur.gamestate ∈ PLAYING_STATES := by simpa using hc
  have ho' : old.gamestate ∉ PLAYING_STATES := by simpa using ho
  simp [classifyUpdate, hc', ho']

/-- Witness for C2: `previous.gamestate = 7` (not playing),
`current.gamestate = 0` (playing), timer decoded to 999 ns, split-range state
values present — still `NewGame` with time 0. -/
theorem c2_new_game_rule_witness :
    PLAYING_STATES.contains (0 : Nat) = true
    ∧ PLAYING_STATES.contains (7 : Nat) = false
    ∧ classifyUpdate { room := (1, 2), gamestate := 7, state := 42 }
        { room := (3, 4), gamestate := 0, state := 43 } 999
      = { time := 0, event := some Event.NewGame } :=
  ⟨by decide, by decide, c2_new_game_rule _ _ 999 (by decide) (by decide)⟩

/-- C4: whenever `current.gamestate` is not in the playing set and
`previous.gamestate` is, classification produces `Reset` with elapsed time
equal to the decoded timer value `t` (not zeroed). -/
theorem c4_reset_rule (old cur : State) (t : Nat)
    (hc : PLAYING_STATES.contains cur.gamestate = false)
    (ho : PLAYING_STATES.contains old.gamestate = true) :
    classifyUpdate old cur t = { time := t, event := some Event.Reset } := by
  have hc' : cur.gamestate ∉ PLAYING_STATES := by simpa using hc
  have ho' : old.gamestate ∈ PLAYING_STATES := by simpa using ho
  simp [classifyUpdate, hc', ho']

/-- Witness for C4: `previous.gamestate = 0` (playing),
`current.gamestate = 9` (not playing) — `Reset` with the decoded time 777. -/
theorem c4_reset_rule_witness :
    PLAYING_STATES.contains (9 : Nat) = false
    ∧ PLAYING_STATES.contains (0 : Nat) = true
    ∧ classifyUpdate { room := (1, 2), gamestate := 0, state := 42 }
        { room := (3, 4), gamestate := 9, state := 43 } 777
      = { time := 777, event := some Event.Reset } :=
  ⟨by decide, by decide, c4_reset_rule _ _ 777 (by decide) (by decide)⟩

/-- C6 counterexample: the timer fields `(frames = 15, seconds = 2,
minutes = 1, hours = 0)` do NOT decode to 62 s + 500,000,000 ns: the code
computes `1_000_000_000u32 / 30 * 15 = 33_333_333 * 15 = 499_999_995` ns
(truncating division happens before the multiplication). -/
theorem c6_counterexample :
    timeOf 15 2 1 0 ≠ 62 * 1000000000 + 500000000 := by decide

/-- C6 amended: `(frames = 15, seconds = 2, minutes = 1, hours = 0)` decodes
to exactly 62 seconds plus 499,999,995 nanoseconds. -/
theorem c6_amended : timeOf 15 2 1 0 = 62 * 1000000000 + 499999995 := by
  decide

/-- C7 counterexample: at `frames = 129` the `u32` product
`33_333_333 * 129` wraps modulo `2^32`, so the decoded duration is not
`129 * (1_000_000_000 / 30)` nanoseconds. -/
theorem c7_counterexample :
    ¬ timeOf 129 0 0 0
        = (0 * 3600 + 0 * 60 + 0) * 1000000000 + 129 * (1000000000 / 30) := by
  decide

/-- C7 amended: for every decoded timer with `frames ≤ 128` (so that the
`u32` nanosecond product cannot wrap), the elapsed time is
`hours*3600 + minutes*60 + seconds` whole seconds plus
`frames * (1_000_000_000 / 30)` nanoseconds, the division truncating and
performed before the multiplication. -/
theorem c7_amended (frames seconds minutes hours : Nat)
    (h : frames ≤ 128) :
    timeOf frames seconds minutes hours
      = (hours * 3600 + minutes * 60 + seconds) * 1000000000
          + frames * (1000000000 / 30) := by
  unfold timeOf
  have h30 : (1000000000 : Nat) / 30 = 33333333 := by norm_num
  rw [h30]
  omega

/-- Witness for C7 (amended): a full 30-frame second decodes to
999,999,990 ns, not one second. -/
theorem c7_amended_witness :
    30 ≤ 128
    ∧ timeOf 30 0 0 0
        = (0 * 3600 + 0 * 60 + 0) * 1000000000 + 30 * (1000000000 / 30) :=
  ⟨by decide, c7_amended 30 0 0 0 (by decide)⟩

/-- C9: the nanosecond term is `1_000_000_000 / 30 * frames = 33_333_333 *
frames` in `u32` arithmetic: for `frames ≤ 128` the product fits in `u32`
and the decoded time equals the documented formula; for `129 ≤ frames <
2^32` the product exceeds `u32::MAX`, wraps modulo `2^32`, and the decoded
time differs from the documented formula. -/
theorem c9_u32_nanos_overflow :
    (∀ frames seconds minutes hours : Nat, frames ≤ 128 →
      1000000000 / 30 * frames < 4294967296
      ∧ timeOf frames seconds minutes hours
          = (hours * 3600 + minutes * 60 + seconds) * 1000000000
              + 1000000000 / 30 * frames)
    ∧ (∀ frames seconds minutes hours : Nat,
        129 ≤ frames → frames < 4294967296 →
      4294967296 ≤ 1000000000 / 30 * frames
      ∧ timeOf frames seconds minutes hours
          ≠ (hours * 3600 + minutes * 60 + seconds) * 1000000000
              + 1000000000 / 30 * frames) := by
  have h30 : (1000000000 : Nat) / 30 = 33333333 := by norm_num
  constructor
  · intro f s m h hf
    unfold timeOf
    rw [h30]
    omega
  · intro f s m h hf hlt
    unfold timeOf
    rw [h30]
    omega

/-- Witness for C9: `frames = 128` fits and matches the formula exactly;
`frames = 129` overflows and differs. -/
theorem c9_u32_nanos_overflow_witness :
    (1000000000 / 30 * 128 < 4294967296
      ∧ timeOf 128 0 0 0
          = (0 * 3600 + 0 * 60 + 0) * 1000000000 + 1000000000 / 30 * 128)
    ∧ (4294967296 ≤ 1000000000 / 30 * 129
      ∧ timeOf 129 0 0 0
          ≠ (0 * 3600 + 0 * 60 + 0) * 1000000000 + 1000000000 / 30 * 129) :=
  ⟨c9_u32_nanos_overflow.1 128 0 0 0 (by decide),
   c9_u32_nanos_overflow.2 129 0 0 0 (by decide) (by decide)⟩

/-- C8: a failed memory read inside `poll` (modelled as `read = none`)
propagates the error and leaves both stored snapshots exactly as they were:
the `?` operator returns before any history mutation. -/
theorem c8_no_mutation_on_failure (hist : State × State) :
    poll hist none = (hist, none) := rfl

/-- C1: when neither gamestate rule fires and the state-3006 suppression does
not apply, the emitted event is exactly the first of the eight declared
`SPLITS` pairs whose range contains `current.state` but not `previous.state`
(`find?` in declared order); and whenever both states lie inside the same
declared range, no event is emitted (a value staying inside a range never
re-fires). -/
theorem c1_split_edge_entry (old cur : State) (t : Nat)
    (h1 : ¬(cur.gamestate ∈ PLAYING_STATES ∧ old.gamestate ∉ PLAYING_STATES))
    (h2 : ¬(cur.gamestate ∉ PLAYING_STATES ∧ old.gamestate ∈ PLAYING_STATES))
    (h3 : ¬(cur.state = 3006 ∧ cur.room ≠ (115, 100))) :
    (classifyUpdate old cur t).event
        = (SPLITS.find? (splitFires old cur)).map Prod.fst
    ∧ ∀ p ∈ SPLITS, rangeContains p.2 old.state = true →
        rangeContains p.2 cur.state = true →
        (classifyUpdate old cur t).event = none := by
  have hev : (classifyUpdate old cur t).event
      = (SPLITS.find? (splitFires old cur)).map Prod.fst := by
    simp [classifyUpdate, h1, h2, h3, findSome?_if_eq_find?_map]
  refine ⟨hev, ?_⟩
  intro p hp ho hc
  have hfind : SPLITS.find? (splitFires old cur) = none := by
    rw [List.find?_eq_none]
    intro x hx
    fin_cases hp <;> fin_cases hx <;>
      simp_all [splitFires, rangeContains] <;> omega
  rw [hev, hfind]
  rfl

/-- Witness for C1: `previous.state = 3007`, `current.state = 3008` (both
inside the `Verdigris` range, gamestate 0 throughout) — the classification
equals the first-edge `find?` formulation, and it emits no event. -/
theorem c1_split_edge_entry_witness :
    (classifyUpdate { room := (0, 0), gamestate := 0, state := 3007 }
        { room := (0, 0), gamestate := 0, state := 3008 } 5).event
      = (SPLITS.find?
          (splitFires { room := (0, 0), gamestate := 0, state := 3007 }
            { room := (0, 0), gamestate := 0, state := 3008 })).map Prod.fst
    ∧ (classifyUpdate { room := (0, 0), gamestate := 0, state := 3007 }
        { room := (0, 0), gamestate := 0, state := 3008 } 5).event = none := by
  have h := c1_split_edge_entry
    { room := (0, 0), gamestate := 0, state := 3007 }
    { room := (0, 0), gamestate := 0, state := 3008 } 5
    (by decide) (by decide) (by decide)
  exact ⟨h.1, h.2 (Event.Verdigris, (3006, 3011)) (by decide) (by decide)
    (by decide)⟩

/-- C3: once the split-matching step is reached (neither gamestate rule
fires), `current.state = 3006` in any room other than `(115, 100)` yields no
event at all, even though 3006 is inside the `Verdigris` range; while in room
`(115, 100)` with `previous.state` outside `3006..=3011` the `Verdigris`
event is emitted. -/
theorem c3_state3006_suppression (old cur : State) (t : Nat)
    (h1 : ¬(cur.gamestate ∈ PLAYING_STATES ∧ old.gamestate ∉ PLAYING_STATES))
    (h2 : ¬(cur.gamestate ∉ PLAYING_STATES ∧ old.gamestate ∈ PLAYING_STATES)) :
    (cur.state = 3006 → cur.room ≠ (115, 100) →
        (classifyUpdate old cur t).event = none)
    ∧ (cur.state = 3006 → cur.room = (115, 100) →
        ¬(3006 ≤ old.state ∧ old.state ≤ 3011) →
        (classifyUpdate old cur t).event = some Event.Verdigris)
    ∧ rangeContains (3006, 3011) 3006 = true := by
  refine ⟨?_, ?_, by decide⟩
  · intro hs hr
    simp [classifyUpdate, h1, h2, hs, hr]
  · intro hs hr hold
    have h4 : rangeContains (3006, 3011) old.state = false := by
      simp only [rangeContains, decide_eq_false_iff_not]
      exact hold
    have hfire : splitFires old cur (Event.Verdigris, (3006, 3011)) = true := by
      unfold splitFires
      rw [hs, h4]
      decide
    simp [classifyUpdate, h1, h2, hs, hr, SPLITS, hfire]

/-- Witness for C3: `previous.state = 3005`; with `current.state = 3006` in
room `(116, 100)` no event is emitted, while in room `(115, 100)` the
`Verdigris` event fires. -/
theorem c3_state3006_suppression_witness :
    (classifyUpdate { room := (114, 100), gamestate := 0, state := 3005 }
        { room := (116, 100), gamestate := 0, state := 3006 } 5).event = none
    ∧ (classifyUpdate { room := (114, 100), gamestate := 0, state := 3005 }
        { room := (115, 100), gamestate := 0, state := 3006 } 5).event
      = some Event.Verdigris :=
  ⟨(c3_state3006_suppression
      { room := (114, 100), gamestate := 0, state := 3005 }
      { room := (116, 100), gamestate := 0, state := 3006 } 5
      (by decide) (by decide)).1 rfl (by decide),
   (c3_state3006_suppression
      { room := (114, 100), gamestate := 0, state := 3005 }
      { room := (115, 100), gamestate := 0, state := 3006 } 5
      (by decide) (by decide)).2.1 rfl rfl (by decide)⟩

/-- C10 counterexample: a poll decodes `exMax` (state `u32::MAX`); the claim
says the NEXT successful poll is treated as a first poll (both snapshots set
to the new one, event `None`).  In fact the next poll shifts normally — it
does not set both snapshots to `exNext`, and it even emits `NewGame` (the
9 → 0 gamestate edge), because the sentinel only lands in `old` one poll
later. -/
theorem c10_counterexample :
    (updateStep (updateStep exOld exCur exMax 5).1.1
        (updateStep exOld exCur exMax 5).1.2 exNext 6).1 ≠ (exNext, exNext)
    ∧ (updateStep (updateStep exOld exCur exMax 5).1.1
        (updateStep exOld exCur exMax 5).1.2 exNext 6).2.event ≠ none := by
  decide

/-- C10 amended: first-poll detection tests only `previous.state = u32::MAX`.
When a successful poll decodes a snapshot whose `state` is `u32::MAX` (with
neither stored snapshot already sentinel), it is the second-following
successful poll — not the next one — that is treated as a first poll: that
poll sets both snapshots to its newly read snapshot `s3` and returns event
`None` regardless of the actual transition. -/
theorem c10_amended (old cur s s2 s3 : State) (t1 t2 t3 : Nat)
    (h1 : old.state ≠ UMAX) (h2 : cur.state ≠ UMAX) (hs : s.state = UMAX) :
    (updateStep
        (updateStep (updateStep old cur s t1).1.1
          (updateStep old cur s t1).1.2 s2 t2).1.1
        (updateStep (updateStep old cur s t1).1.1
          (updateStep old cur s t1).1.2 s2 t2).1.2 s3 t3).1 = (s3, s3)
    ∧ (updateStep
        (updateStep (updateStep old cur s t1).1.1
          (updateStep old cur s t1).1.2 s2 t2).1.1
        (updateStep (updateStep old cur s t1).1.1
          (updateStep old cur s t1).1.2 s2 t2).1.2 s3 t3).2.event = none := by
  have e1 : (updateStep old cur s t1).1 = (cur, s) := by
    simp [updateStep, updateHistory, h1]
  rw [e1]
  have e2 : (updateStep cur s s2 t2).1 = (s, s2) := by
    simp [updateStep, updateHistory, h2]
  rw [e2]
  have e3 : (updateStep s s2 s3 t3).1 = (s3, s3) := by
    simp [updateStep, updateHistory, hs]
  refine ⟨e3, ?_⟩
  have e4 : (updateStep s s2 s3 t3).2 = classifyUpdate s3 s3 t3 := by
    simp [updateStep, updateHistory, hs]
  rw [e4, classifyUpdate_self]

/-- Witness for C10 (amended): after decoding a sentinel snapshot mid-run,
the second-following poll resets history to its own snapshot and reports no
event, even across a 9 → 0 gamestate edge that would otherwise be `NewGame`. -/
theorem c10_amended_witness :
    (updateStep
        (updateStep (updateStep exOld exCur exMax 5).1.1
          (updateStep exOld exCur exMax 5).1.2 exNext 6).1.1
        (updateStep (updateStep exOld exCur exMax 5).1.1
          (updateStep exOld exCur exMax 5).1.2 exNext 6).1.2
        { room := (2, 2), gamestate := 0, state := 3007 } 7).1
      = ({ room := (2, 2), gamestate := 0, state := 3007 },
         { room := (2, 2), gamestate := 0, state := 3007 })
    ∧ (updateStep
        (updateStep (updateStep exOld exCur exMax 5).1.1
          (updateStep exOld exCur exMax 5).1.2 exNext 6).1.1
        (updateStep (updateStep exOld exCur exMax 5).1.1
          (updateStep exOld exCur exMax 5).1.2 exNext 6).1.2
        { room := (2, 2), gamestate := 0, state := 3007 } 7).2.event = none :=
  c10_amended exOld exCur exMax exNext
    { room := (2, 2), gamestate := 0, state := 3007 } 5 6 7
    (by decide) (by decide) (by decide)

/-- C5 counterexample: the claim quantifies over an ARBITRARY wildcard byte,
but the pattern `00:00\x00{18}.nowhere` is compiled by `regex::bytes` in
default Unicode mode, where `.` does not match a lone `0x0A` byte.  Placing
the 31-byte signature with wildcard byte `0x0A` at the very start of the
scanned range (all other memory zero, every chunk readable), the scan finds
nothing and `attach` fails with object-not-found instead of returning
`0x1_0000_0000 - 0xb8`. -/
theorem c5_counterexample :
    sigBytesAt (memWith 10) 4294967296 10
    ∧ findGameObject (memWith 10) allOk = none := by
  constructor
  · refine ⟨by decide, by decide, by decide, by decide, by decide, ?_,
      by decide, by decide, by decide, by decide, by decide, by decide,
      by decide, by decide⟩
    intro j hj
    interval_cases j <;> decide
  · show scanAux (memWith 10) allOk 0 numChunks = none
    apply scanAux_eq_none
    intro j _ _
    show chunkFindAux (memWith 10) (chunkAddr j) 0 chunkSize = none
    apply chunkFindAux_eq_none
    intro i len _ _ hml
    rw [memWith10_no_match (chunkAddr j + i)] at hml
    cases hml

/-- C5 amended: for every placement of the 31-byte signature whose wildcard
byte is one the regex wildcard actually matches as a single byte (any value
`≤ 0x7F` other than `0x0A`, the pattern running in default Unicode mode), at
an address in the scanned range with every chunk readable and no earlier
match in memory: some 4096-byte chunk fully contains the match (the 40-byte
overlap guarantees this), and the scan returns the absolute match start
rounded down to the nearest 8-byte boundary minus `0xb8`, taking the first
match in increasing address order.  If no chunk matches, the scan returns
`none` (attach fails with the object-not-found error). -/
theorem c5_signature_scan_amended :
    (∀ (mem : Nat → Nat) (ok : Nat → Bool) (a b : Nat),
      (∀ k, ok (chunkAddr k) = true) →
      scanBase ≤ a → a + 31 ≤ scanEnd →
      sigBytesAt mem a b → b ≤ 127 → b ≠ 10 →
      (∀ p, p < a → matchLen mem p = none) →
      (∃ k, k < numChunks ∧ chunkAddr k ≤ a ∧ a + 31 ≤ chunkAddr k + chunkSize)
      ∧ findGameObject mem ok = some (a - a % 8 - OFFSET_GAMETIME))
    ∧ ∀ (mem : Nat → Nat) (ok : Nat → Bool),
        (∀ k, k < numChunks → chunkFind mem (chunkAddr k) = none) →
        findGameObject mem ok = none := by
  constructor
  · intro mem ok a b hok ha1 ha2 hsig hb1 hb2 hmin
    refine ⟨chunk_covers a ha1 ha2, ?_⟩
    have hm := matchLen_of_sig hsig hb1 hb2
    show scanAux mem ok 0 numChunks = some (a - a % 8 - OFFSET_GAMETIME)
    refine scanAux_finds mem ok a hok hmin hm ha1 ha2 numChunks 0
      (Nat.zero_add _) ?_
    have hca0 : chunkAddr 0 = scanBase := rfl
    rw [hca0]
    exact ha1
  · intro mem ok h
    show scanAux mem ok 0 numChunks = none
    exact scanAux_eq_none mem ok numChunks 0 fun j _ hj2 => h j (by omega)

/-- Witness for C5 (amended): the signature with wildcard byte `0x78` at
address `0x1_0000_0000` in an otherwise zero memory with all chunks
readable — the scan returns `0x1_0000_0000 - 0xb8`. -/
theorem c5_signature_scan_amended_witness :
    findGameObject (memWith 120) allOk
      = some (4294967296 - 4294967296 % 8 - OFFSET_GAMETIME) := by
  have hsig : sigBytesAt (memWith 120) 4294967296 120 := by
    refine ⟨by decide, by decide, by decide, by decide, by decide, ?_,
      by decide, by decide, by decide, by decide, by decide, by decide,
      by decide, by decide⟩
    intro j hj
    interval_cases j <;> decide
  have hmin : ∀ p, p < 4294967296 → matchLen (memWith 120) p = none :=
    fun p hp =>
      matchLen_none_of_byte0 (memWith_eq_zero_outside 120 p (Or.inl hp))
  exact (c5_signature_scan_amended.1 (memWith 120) allOk 4294967296 120
    (fun _ => rfl) (by decide) (by decide) hsig (by decide) (by decide)
    hmin).2

end Vitellary
